import Mathlib

/-!
Verification of the NCBI sequence-retrieval pipeline (`s27597_2025-2.py`).

The script retrieves nucleotide records for a taxonomic ID, filters them by
sequence length, writes a CSV summary sorted by length descending, and renders
a plot of the same table.  This file gives a shallow embedding of its data
model and operations and proves the specified properties about them.

Modelling conventions:
- A Biopython `SeqRecord` becomes `SeqRecord` below: an accession id, the raw
  sequence (whose only observed attribute is its length), and a description.
- Network calls (`Entrez.efetch` on the taxonomy database, `Entrez.esearch`)
  are fallible: their outcomes are passed in as `Except String _` values, and
  a Python exception raised inside the `try` block of `search` corresponds to
  the `.error` case.
- `pandas.DataFrame.sort_values(by="length", ascending=False)` sorts by the
  length column; with the default `kind='quicksort'` pandas documents no
  stability guarantee, so the relative order of equal-length rows is a
  library implementation detail.  The model uses `List.mergeSort` as a
  concrete deterministic stand-in that sorts by length descending; no
  theorem in this file depends on the tie order of this stand-in.
- File contents are `List Char`; writing a CSV is producing such a list.
-/

/-- Model of a Biopython `SeqRecord` as consumed by the script: `r.id`,
`r.seq` (only its length is ever used) and `r.description`. -/
structure SeqRecord where
  id : String
  seq : String
  description : String
  deriving DecidableEq, Repr

/-- One row of the table built by `save_csv`: the projection of a record to
accession, length and description (source lines 45-49). -/
structure CsvRow where
  accession : String
  length : Nat
  description : String
  deriving DecidableEq, Repr

/-- Embedding of `filter_records(records, min_len, max_len)` (source lines
41-42): the list comprehension keeping the records `r` with
`min_len <= len(r.seq) <= max_len`.  Python integers are unbounded and signed,
so the bounds are `Int`. -/
def filter_records (records : List SeqRecord) (min_len max_len : Int) :
    List SeqRecord :=
  records.filter fun r =>
    decide (min_len ≤ (r.seq.length : Int) ∧ (r.seq.length : Int) ≤ max_len)

/-- The projection of a record to a table row, as in the dict comprehension of
`save_csv` (source lines 45-49). -/
def rowOfRecord (r : SeqRecord) : CsvRow :=
  { accession := r.id, length := r.seq.length, description := r.description }

/-- The comparator of `sort_values(by="length", ascending=False)`: row `a` may
precede row `b` when its length is not below the length of `b`. -/
def lenDesc (a b : CsvRow) : Bool :=
  b.length ≤ a.length

/-- Model of `df.sort_values(by="length", ascending=False)` (source lines 51
and 56): a deterministic sort of the rows by length descending.  The real
call uses pandas' default `kind='quicksort'`, which guarantees only the
non-increasing length order, not the relative order of equal-length rows;
no theorem below relies on the tie order of this stand-in. -/
def sortByLengthDesc (rows : List CsvRow) : List CsvRow :=
  rows.mergeSort lenDesc

/-- The table that `save_csv(records, filename)` builds and returns (source
lines 44-53): project every record to a row, then sort by length
descending. -/
def save_csv_table (records : List SeqRecord) : List CsvRow :=
  sortByLengthDesc (records.map rowOfRecord)

/-! ## CSV serialization

`save_csv` writes the sorted table with `df.to_csv(filename, index=False)`:
a header row `accession,length,description`, then one line per row with the
fields in that order, each line terminated by a newline.  Fields containing a
separator, a quote or a line break are quoted, with embedded quotes doubled
(the csv `QUOTE_MINIMAL` convention used by `to_csv`).  File contents are
modelled as `List Char`. -/

/-- The decimal digit `d` (`0 ≤ d ≤ 9`) as a character. -/
def digitChar (d : Nat) : Char := Char.ofNat (48 + d)

/-- The decimal rendering of a natural number, most significant digit first,
as Python `str` produces for a nonnegative `int`. -/
def natChars (n : Nat) : List Char :=
  if n = 0 then ['0'] else ((Nat.digits 10 n).map digitChar).reverse

/-- Whether `c` is a decimal digit. -/
def isDigitChar (c : Char) : Bool := 48 ≤ c.toNat && c.toNat ≤ 57

/-- The numeric value of a digit character. -/
def digitVal (c : Char) : Nat := c.toNat - 48

/-- The natural number denoted by a most-significant-first digit string. -/
def charsToNat (cs : List Char) : Nat :=
  cs.foldl (fun acc c => 10 * acc + digitVal c) 0

/-- Parse a decimal natural number; fails on the empty string or on any
non-digit character. -/
def parseNatChars (cs : List Char) : Option Nat :=
  if cs ≠ [] ∧ cs.all isDigitChar then some (charsToNat cs) else none

/-- Whether a CSV field containing `c` must be quoted (`QUOTE_MINIMAL`):
separators, quotes and line breaks force quoting. -/
def needsQuote (c : Char) : Bool :=
  c == ',' || c == '"' || c == '\n' || c == '\r'

/-- Double every quote character, the csv escaping convention. -/
def escapeQuotes : List Char → List Char
  | [] => []
  | c :: cs =>
    if c = '"' then '"' :: '"' :: escapeQuotes cs else c :: escapeQuotes cs

/-- Render one CSV field, quoting it only when required. -/
def quoteField (s : List Char) : List Char :=
  if s.any needsQuote then '"' :: (escapeQuotes s ++ ['"']) else s

/-- Render one CSV record: the fields separated by commas, terminated by a
newline. -/
def renderFields : List (List Char) → List Char
  | [] => ['\n']
  | [f] => quoteField f ++ ['\n']
  | f :: fs => quoteField f ++ ',' :: renderFields fs

/-- The header fields written by `to_csv` for this DataFrame. -/
def headerFields : List (List Char) :=
  ["accession".data, "length".data, "description".data]

/-- The three fields of a data row, in column order. -/
def rowFields (row : CsvRow) : List (List Char) :=
  [row.accession.data, natChars row.length, row.description.data]

/-- The full CSV file that `save_csv` writes for a table (source line 52):
header row followed by one record per table row. -/
def writeCsvChars (table : List CsvRow) : List Char :=
  renderFields headerFields ++
    (table.map (fun row => renderFields (rowFields row))).flatten

/-- Whether `c` can continue an unquoted field: anything but a separator or a
record terminator. -/
def notSep (c : Char) : Bool := !(c == ',' || c == '\n')

/-- Render a sequence of CSV records. -/
def renderRows (rss : List (List (List Char))) : List Char :=
  (rss.map renderFields).flatten

/-- Modelled from the spec: the CSV reader of the round-trip property (the
repository only writes CSV).  Parse a quoted field after its opening quote:
a doubled quote is a literal quote, a single quote closes the field. -/
def parseQuoted : List Char → Option (List Char × List Char)
  | [] => none
  | c :: rest =>
    if c = '"' then
      match rest with
      | [] => some ([], [])
      | c2 :: rest2 =>
        if c2 = '"' then
          (parseQuoted rest2).map (fun p => ('"' :: p.1, p.2))
        else some ([], c2 :: rest2)
    else (parseQuoted rest).map (fun p => (c :: p.1, p.2))

/-- Modelled from the spec: parse one CSV field, quoted or bare. -/
def parseField : List Char → Option (List Char × List Char)
  | [] => some ([], [])
  | c :: rest =>
    if c = '"' then parseQuoted rest
    else some ((c :: rest).takeWhile notSep, (c :: rest).dropWhile notSep)

/-- Modelled from the spec: parse the comma-separated fields of one CSV
record up to and including its terminating newline.  The fuel bounds the
number of fields. -/
def parseFields : Nat → List Char → Option (List (List Char) × List Char)
  | 0, _ => none
  | fuel + 1, cs =>
    match parseField cs with
    | none => none
    | some (f, rest) =>
      match rest with
      | [] => none
      | c :: rest2 =>
        if c = ',' then
          match parseFields fuel rest2 with
          | none => none
          | some (fs, rest3) => some (f :: fs, rest3)
        else if c = '\n' then some ([f], rest2)
        else none

/-- Modelled from the spec: parse a sequence of CSV records until the input
is exhausted.  The fuel bounds the number of records. -/
def parseRows : Nat → List Char → Option (List (List (List Char)))
  | 0, _ => none
  | fuel + 1, cs =>
    if cs.isEmpty then some []
    else
      match parseFields (cs.length + 1) cs with
      | none => none
      | some (fs, rest) =>
        match parseRows fuel rest with
        | none => none
        | some rows => some (fs :: rows)

/-- Modelled from the spec: interpret the three fields of a data record as a
table row, parsing the length column as a decimal number. -/
def rowOfFields : List (List Char) → Option CsvRow
  | [a, l, d] =>
    (parseNatChars l).map fun n =>
      { accession := String.mk a, length := n, description := String.mk d }
  | _ => none

/-- Modelled from the spec: the CSV reader.  Parse the file into records,
check the header, and interpret every remaining record as a table row. -/
def parseCsvChars (cs : List Char) : Option (List CsvRow) :=
  match parseRows (cs.length + 1) cs with
  | none => none
  | some [] => none
  | some (hdr :: body) =>
    if hdr = headerFields then body.mapM rowOfFields else none

/-! ## The NCBI retriever -/

/-- The mutable attributes an `NCBIRetriever` instance may carry.  Python
object attributes come into existence on first assignment, so each is an
`Option`, `none` meaning "not yet assigned" (reading it raises
`AttributeError`). -/
structure RetrieverState where
  organism : Option String
  count : Option Nat
  webenv : Option String
  query_key : Option String
  deriving DecidableEq, Repr

/-- A freshly constructed retriever: `__init__` assigns none of the four
attributes (source lines 8-11 only configure the `Entrez` module). -/
def initState : RetrieverState := ⟨none, none, none, none⟩

/-- The part of a parsed taxonomy-database response that `search` reads. -/
structure TaxRecord where
  scientificName : String
  deriving DecidableEq, Repr

/-- The part of a parsed `esearch` response that `search` reads. -/
structure EsearchResult where
  count : Nat
  webEnv : String
  queryKey : String
  deriving DecidableEq, Repr

/-- Embedding of `NCBIRetriever.search` (source lines 13-28).  The outcomes
of the two network calls are passed in as `Except` values; a `.error` is a
Python exception raised inside the `try` block (network failure, malformed
response, unknown taxonomic ID).  Returns the new state, the return value,
and the lines printed.  The taxonomy lookup happens first, and `organism` is
assigned (and printed) before `esearch` runs; the `except` clause prints the
error and returns 0. -/
def NCBIRetriever.search (st : RetrieverState)
    (taxLookup : Except String TaxRecord)
    (esearch : Except String EsearchResult) :
    RetrieverState × Nat × List String :=
  match taxLookup with
  | .error e => (st, 0, ["Search error: " ++ e])
  | .ok t =>
    let st1 : RetrieverState := { st with organism := some t.scientificName }
    match esearch with
    | .error e =>
      (st1, 0, ["Organism: " ++ t.scientificName, "Search error: " ++ e])
    | .ok r =>
      ({ st1 with
          count := some r.count
          webenv := some r.webEnv
          query_key := some r.queryKey },
        r.count,
        ["Organism: " ++ t.scientificName])

/-- One `Entrez.efetch` call issued by the pagination loop of
`fetch_records` (source lines 34-37). -/
structure FetchCall where
  retstart : Nat
  retmax : Nat
  webenv : String
  query_key : String
  deriving DecidableEq, Repr

/-- Python `range(0, stop, step)` for a positive step: the multiples of
`step` below `stop`. -/
def pyRange (stop step : Nat) : List Nat :=
  List.range' 0 ((stop + step - 1) / step) step

/-- Embedding of `NCBIRetriever.fetch_records` (source lines 30-39), as the
list of fetch calls the loop issues: `for start in range(0, max_records,
batch_size)` with `batch_size = 500`, each call carrying
`retstart = start`, `retmax = min(batch_size, max_records - start)` and the
stored session token pair.  Reading an unassigned `webenv` or `query_key`
attribute raises, which the embedding renders as `none`. -/
def NCBIRetriever.fetch_records (st : RetrieverState) (max_records : Nat) :
    Option (List FetchCall) :=
  match st.webenv, st.query_key with
  | some w, some q =>
    some ((pyRange max_records 500).map fun start =>
      { retstart := start
        retmax := min 500 (max_records - start)
        webenv := w
        query_key := q })
  | _, _ => none

/-! ## Plotter and orchestrator -/

/-- The observable outcome of `plot_lengths` (source lines 55-65): the series
that was plotted (the re-sorted table), whether control reached `plt.close()`,
and the propagated result of `plt.savefig` (`.error` when saving raised). -/
structure PlotOutcome where
  series : List CsvRow
  result : Except String Unit
  closed : Bool
  deriving Repr

/-- Embedding of `plot_lengths(df, png_filename)` (source lines 55-65): the
table is re-sorted by length descending and plotted; then `plt.savefig` runs,
and only when it returns normally does control reach `plt.close()` — there is
no `try`/`finally` around it, so an exception in `savefig` propagates with
the figure still open. -/
def plot_lengths (df : List CsvRow) (savefig : Except String Unit) :
    PlotOutcome :=
  let df_sorted := sortByLengthDesc df
  match savefig with
  | .error e => { series := df_sorted, result := .error e, closed := false }
  | .ok _ => { series := df_sorted, result := .ok (), closed := true }

/-- The observable outcome of one run of `main` (source lines 67-94): lines
printed, the CSV file written (name, table, contents) if any, the image file
written if any, and the exception that escaped `main`, if any. -/
structure MainResult where
  messages : List String
  csvFile : Option (String × List CsvRow × List Char)
  pngFile : Option String
  raised : Option String
  deriving Repr

/-- Embedding of `main` (source lines 67-94).  The operator inputs `taxid`,
`min_len`, `max_len` and the outcomes of the network and file-system
interactions are parameters.  `search` runs first; a zero count stops the run
(printing `No results.`) before any file is touched; an empty filtered list
likewise stops the run before any file is touched; otherwise the CSV is
written and the plot rendered. -/
def main_run (taxid : String) (min_len max_len : Int)
    (taxLookup : Except String TaxRecord)
    (esearch : Except String EsearchResult)
    (fetched : List SeqRecord) (savefig : Except String Unit) : MainResult :=
  let res := NCBIRetriever.search initState taxLookup esearch
  let count := res.2.1
  let msgs := res.2.2
  if count = 0 then
    { messages := msgs ++ ["No results."]
      csvFile := none
      pngFile := none
      raised := none }
  else
    let fetchMsg :=
      "Fetching up to 1000 records out of " ++ toString count ++ " available..."
    let filtered := filter_records fetched min_len max_len
    if filtered.isEmpty then
      { messages := msgs ++ [fetchMsg, "No records match length criteria."]
        csvFile := none
        pngFile := none
        raised := none }
    else
      let csv_name := "taxid_" ++ taxid ++ "_filtered.csv"
      let png_name := "taxid_" ++ taxid ++ "_plot.png"
      let df := save_csv_table filtered
      let plot := plot_lengths df savefig
      match plot.result with
      | .error e =>
        { messages := msgs ++ [fetchMsg]
          csvFile := some (csv_name, df, writeCsvChars df)
          pngFile := none
          raised := some e }
      | .ok _ =>
        { messages := msgs ++
            [fetchMsg,
              "Saved " ++ toString filtered.length ++ " records to " ++ csv_name,
              "Plot saved as " ++ png_name]
          csvFile := some (csv_name, df, writeCsvChars df)
          pngFile := some png_name
          raised := none }

/-! ## Theorems -/

/-- Claim C1: `filter_records(records, lo, hi)` returns exactly the records
whose sequence length lies in the inclusive range `[lo, hi]`: it is a sublist
of the input (so the original relative order is preserved and nothing is
duplicated), a record occurs in the output as often as it occurs in the input
when its length is in range and never otherwise, and when no record is in
range the result is the empty list rather than an error. -/
theorem filter_records_spec (records : List SeqRecord) (lo hi : Int) :
    (filter_records records lo hi).Sublist records ∧
    (∀ r : SeqRecord, r ∈ filter_records records lo hi ↔
      r ∈ records ∧ lo ≤ (r.seq.length : Int) ∧ (r.seq.length : Int) ≤ hi) ∧
    (∀ r : SeqRecord,
      (filter_records records lo hi).count r =
        if lo ≤ (r.seq.length : Int) ∧ (r.seq.length : Int) ≤ hi then
          records.count r
        else 0) ∧
    ((∀ r ∈ records, ¬(lo ≤ (r.seq.length : Int) ∧ (r.seq.length : Int) ≤ hi))
      → filter_records records lo hi = []) := by
  refine ⟨List.filter_sublist _, ?_, ?_, ?_⟩
  · intro r
    simp [filter_records, List.mem_filter, and_comm]
  · intro r
    by_cases h : lo ≤ (r.seq.length : Int) ∧ (r.seq.length : Int) ≤ hi
    · simp only [h, if_true, filter_records]
      exact List.count_filter (by simpa using h)
    · simp only [h, if_false, filter_records]
      refine List.count_eq_zero.mpr ?_
      intro hmem
      exact h (by simpa using (List.mem_filter.mp hmem).2)
  · intro h
    simp only [filter_records, List.filter_eq_nil_iff]
    intro r hr
    simpa using h r hr

/-- Concrete instantiation of `filter_records_spec`, discharging its inner
hypothesis: with bounds `[1, 2]` and records of lengths 2, 0, 1, the record of
length 0 is excluded and the record of length 2 kept. -/
theorem filter_records_spec_witness :
    (⟨"A1", "gc", "d1"⟩ : SeqRecord) ∈
        filter_records [⟨"A1", "gc", "d1"⟩, ⟨"A2", "", "d2"⟩, ⟨"A3", "g", "d3"⟩] 1 2 ∧
      (⟨"A2", "", "d2"⟩ : SeqRecord) ∉
        filter_records [⟨"A1", "gc", "d1"⟩, ⟨"A2", "", "d2"⟩, ⟨"A3", "g", "d3"⟩] 1 2 := by
  refine ⟨?_, ?_⟩
  · exact ((filter_records_spec _ 1 2).2.1 _).mpr (by refine ⟨by simp, by decide, by decide⟩)
  · intro hmem
    have h := ((filter_records_spec _ 1 2).2.1 _).mp hmem
    simp at h

/-- Claim C3: for every positive `max_records`, `fetch_records` (given a
stored session token pair) issues one batch per 500 records: the `i`-th call
has `retstart = 500 * i` and `retmax = min 500 (max_records - 500 * i)`, the
number of calls is `max_records / 500` rounded up, and in particular
`max_records = 1200` issues exactly three calls with offsets 0, 500, 1000 and
retmax 500, 500, 200. -/
theorem fetch_records_pagination (st : RetrieverState) (w q : String)
    (m : Nat) (hw : st.webenv = some w) (hq : st.query_key = some q)
    (_hm : 0 < m) :
    (∃ calls : List FetchCall,
      NCBIRetriever.fetch_records st m = some calls ∧
      calls.length = (m + 499) / 500 ∧
      ∀ i (h : i < calls.length),
        calls.get ⟨i, h⟩ =
          ⟨500 * i, min 500 (m - 500 * i), w, q⟩) ∧
    NCBIRetriever.fetch_records st 1200 =
      some [⟨0, 500, w, q⟩, ⟨500, 500, w, q⟩, ⟨1000, 200, w, q⟩] := by
  have hfetch : ∀ n, NCBIRetriever.fetch_records st n =
      some ((pyRange n 500).map fun start =>
        { retstart := start
          retmax := min 500 (n - start)
          webenv := w
          query_key := q }) := by
    intro n
    unfold NCBIRetriever.fetch_records
    rw [hw, hq]
  constructor
  · refine ⟨_, hfetch m, ?_, ?_⟩
    · simp [pyRange]
    · intro i h
      simp only [List.get_eq_getElem, List.getElem_map, pyRange,
        List.getElem_range', Nat.zero_add]
  · rw [hfetch 1200]
    rfl

/-- Concrete instantiation of `fetch_records_pagination`: a retriever whose
session tokens are `"W"`, `"Q"` paginates `max_records = 1200` into exactly
the three calls (0, 500), (500, 500), (1000, 200). -/
theorem fetch_records_pagination_witness :
    NCBIRetriever.fetch_records ⟨none, none, some "W", some "Q"⟩ 1200 =
      some [⟨0, 500, "W", "Q"⟩, ⟨500, 500, "W", "Q"⟩,
        ⟨1000, 200, "W", "Q"⟩] :=
  (fetch_records_pagination ⟨none, none, some "W", some "Q"⟩ "W" "Q" 1200
    rfl rfl (by decide)).2

/-- Claim C4: when `search` returns 0, `main` prints `No results.` and stops:
no exception escapes and neither the CSV file nor the image file is
created. -/
theorem main_no_results (taxid : String) (min_len max_len : Int)
    (taxL : Except String TaxRecord) (es : Except String EsearchResult)
    (fetched : List SeqRecord) (savefig : Except String Unit)
    (h : (NCBIRetriever.search initState taxL es).2.1 = 0) :
    main_run taxid min_len max_len taxL es fetched savefig =
      { messages := (NCBIRetriever.search initState taxL es).2.2 ++
          ["No results."]
        csvFile := none
        pngFile := none
        raised := none } := by
  unfold main_run
  simp [h]

/-- Concrete instantiation of `main_no_results`: a failed taxonomy lookup
makes `search` return 0, and the run stops with no files and no exception. -/
theorem main_no_results_witness :
    (NCBIRetriever.search initState (Except.error "network down")
      (Except.ok ⟨5, "W", "Q"⟩)).2.1 = 0 ∧
    main_run "9606" 0 100 (Except.error "network down")
        (Except.ok ⟨5, "W", "Q"⟩) [] (Except.ok ()) =
      { messages := ["Search error: network down", "No results."]
        csvFile := none
        pngFile := none
        raised := none } :=
  ⟨rfl, main_no_results "9606" 0 100 (Except.error "network down")
    (Except.ok ⟨5, "W", "Q"⟩) [] (Except.ok ()) rfl⟩

/-- Claim C5: when `search` returns a nonzero count but filtering leaves no
record, `main` prints `No records match length criteria.` and stops: no
exception escapes and neither the CSV file nor the image file is created. -/
theorem main_no_matches (taxid : String) (min_len max_len : Int)
    (taxL : Except String TaxRecord) (es : Except String EsearchResult)
    (fetched : List SeqRecord) (savefig : Except String Unit)
    (h : (NCBIRetriever.search initState taxL es).2.1 ≠ 0)
    (h2 : filter_records fetched min_len max_len = []) :
    main_run taxid min_len max_len taxL es fetched savefig =
      { messages := (NCBIRetriever.search initState taxL es).2.2 ++
          ["Fetching up to 1000 records out of " ++
              toString (NCBIRetriever.search initState taxL es).2.1 ++
              " available...",
            "No records match length criteria."]
        csvFile := none
        pngFile := none
        raised := none } := by
  unfold main_run
  simp [h, h2]

/-- Concrete instantiation of `main_no_matches`: a successful search with 7
hits, one fetched record of length 3 and bounds `[1, 2]` stop the run with no
files and no exception. -/
theorem main_no_matches_witness :
    (NCBIRetriever.search initState (Except.ok ⟨"Homo sapiens"⟩)
      (Except.ok ⟨7, "W", "Q"⟩)).2.1 ≠ 0 ∧
    filter_records [⟨"A1", "aaa", "d"⟩] 1 2 = [] ∧
    main_run "9606" 1 2 (Except.ok ⟨"Homo sapiens"⟩)
        (Except.ok ⟨7, "W", "Q"⟩) [⟨"A1", "aaa", "d"⟩] (Except.ok ()) =
      { messages := ["Organism: Homo sapiens",
          "Fetching up to 1000 records out of 7 available...",
          "No records match length criteria."]
        csvFile := none
        pngFile := none
        raised := none } :=
  ⟨by decide, rfl,
    main_no_matches "9606" 1 2 (Except.ok ⟨"Homo sapiens"⟩)
      (Except.ok ⟨7, "W", "Q"⟩) [⟨"A1", "aaa", "d"⟩] (Except.ok ())
      (by decide) rfl⟩

/-- Claim C6: every error during the taxonomy lookup or the history-enabled
search is caught: `search` then returns 0 (instead of raising) and prints a
`Search error:` line; on success it returns the total match count and stores
the organism name and the session token pair `(WebEnv, QueryKey)` on the
retriever. -/
theorem search_error_handling (st : RetrieverState)
    (taxL : Except String TaxRecord) (es : Except String EsearchResult) :
    ((taxL.isOk = false ∨ es.isOk = false) →
      (NCBIRetriever.search st taxL es).2.1 = 0 ∧
      ∃ e, ("Search error: " ++ e) ∈ (NCBIRetriever.search st taxL es).2.2) ∧
    (∀ t r, taxL = Except.ok t → es = Except.ok r →
      NCBIRetriever.search st taxL es =
        ({ st with
            organism := some t.scientificName
            count := some r.count
            webenv := some r.webEnv
            query_key := some r.queryKey },
          r.count, ["Organism: " ++ t.scientificName])) := by
  constructor
  · intro herr
    match taxL, es with
    | .error e, _ => exact ⟨rfl, e, by simp [NCBIRetriever.search]⟩
    | .ok t, .error e => exact ⟨rfl, e, by simp [NCBIRetriever.search]⟩
    | .ok t, .ok r => simp [Except.isOk, Except.toBool] at herr
  · intro t r ht he
    subst ht
    subst he
    rfl

/-- Concrete instantiation of `search_error_handling`: a network failure in
the taxonomy lookup is downgraded to a zero count with a logged message. -/
theorem search_error_handling_witness :
    (NCBIRetriever.search initState (Except.error "timeout")
      (Except.ok ⟨3, "W", "Q"⟩)).2.1 = 0 ∧
    ∃ e, ("Search error: " ++ e) ∈
      (NCBIRetriever.search initState (Except.error "timeout")
        (Except.ok ⟨3, "W", "Q"⟩)).2.2 :=
  (search_error_handling initState (Except.error "timeout")
    (Except.ok ⟨3, "W", "Q"⟩)).1 (Or.inl rfl)

/-- Counterexample to claim C8 as stated: when `plt.savefig` raises, control
never reaches `plt.close()` — at this concrete input the figure is not
closed, while the claim says the plotting surface is closed even when writing
the image file raises an error. -/
theorem plot_lengths_close_skipped :
    (plot_lengths [] (Except.error "savefig failed")).closed = false := rfl

/-- Claim C8 as amended: the figure is closed exactly when `plt.savefig`
returns normally; when saving raises, the exception propagates out of
`plot_lengths` with the figure still open (there is no `try`/`finally`). -/
theorem plot_lengths_close_iff_savefig_ok (df : List CsvRow)
    (savefig : Except String Unit) :
    (plot_lengths df savefig).closed = savefig.isOk ∧
    (plot_lengths df savefig).result = savefig := by
  cases savefig <;> exact ⟨rfl, rfl⟩

theorem takeWhile_append_sep (s rest : List Char)
    (hs : ∀ c ∈ s, notSep c = true)
    (hrest : rest.head? = some ',' ∨ rest.head? = some '\n') :
    (s ++ rest).takeWhile notSep = s ∧ (s ++ rest).dropWhile notSep = rest := by
  induction s with
  | nil =>
    match rest, hrest with
    | c :: t, h =>
      have hc : notSep c = false := by
        rcases h with h | h <;> simp_all [notSep]
      simp [List.takeWhile_cons, List.dropWhile_cons, hc]
  | cons c s ih =>
    have hc : notSep c = true := hs c (by simp)
    have ih2 := ih (fun d hd => hs d (by simp [hd]))
    simp [List.takeWhile_cons, List.dropWhile_cons, hc, ih2.1, ih2.2]

theorem parseQuoted_escapeQuotes (s rest : List Char)
    (hrest : rest.head? ≠ some '"') :
    parseQuoted (escapeQuotes s ++ '"' :: rest) = some (s, rest) := by
  induction s with
  | nil =>
    match rest, hrest with
    | [], _ => rfl
    | c2 :: t, h =>
      have hc2 : ¬(c2 = '"') := by
        intro heq
        exact h (by simp [heq])
      simp [escapeQuotes, parseQuoted, hc2]
  | cons c s ih =>
    by_cases hc : c = '"'
    · subst hc
      simp [escapeQuotes, parseQuoted, ih]
    · have hesc : escapeQuotes (c :: s) = c :: escapeQuotes s := by
        simp [escapeQuotes, hc]
      rw [hesc, List.cons_append]
      have hstep : parseQuoted (c :: (escapeQuotes s ++ '"' :: rest)) =
          (parseQuoted (escapeQuotes s ++ '"' :: rest)).map
            (fun p => (c :: p.1, p.2)) := by
        conv_lhs => rw [parseQuoted.eq_def]
        simp [hc]
      rw [hstep, ih]
      rfl

theorem parseField_quoteField (s rest : List Char)
    (hrest : rest.head? = some ',' ∨ rest.head? = some '\n') :
    parseField (quoteField s ++ rest) = some (s, rest) := by
  have hrq : rest.head? ≠ some '"' := by
    rcases hrest with h | h <;> simp [h]
  by_cases hq : s.any needsQuote
  · have : quoteField s ++ rest = '"' :: (escapeQuotes s ++ '"' :: rest) := by
      simp [quoteField, hq]
    rw [this]
    simpa [parseField] using parseQuoted_escapeQuotes s rest hrq
  · have hnotq : quoteField s = s := by simp [quoteField, hq]
    rw [hnotq]
    have hnone : ∀ c ∈ s, ¬(needsQuote c = true) := by
      intro c hc hneed
      exact hq (List.any_eq_true.mpr ⟨c, hc, hneed⟩)
    have hall : ∀ c ∈ s, notSep c = true := by
      intro c hc
      have := hnone c hc
      simp [needsQuote] at this
      simp [notSep, this]
    have hsplit := takeWhile_append_sep s rest hall hrest
    match s, hnone, hsplit with
    | [], _, hsplit =>
      match rest, hrest with
      | c :: t, h =>
        have hc : ¬(c = '"') := by
          rcases h with h | h <;> simp_all
        simp only [List.nil_append] at hsplit
        simp [parseField, hc, hsplit.1, hsplit.2]
    | c :: s, hnone, hsplit =>
      have hc : ¬(c = '"') := by
        have := hnone c (by simp)
        intro heq
        subst heq
        simp [needsQuote] at this
      simp only [List.cons_append] at hsplit ⊢
      simp [parseField, hc, hsplit.1, hsplit.2]

theorem renderFields_ne_nil (fs : List (List Char)) : renderFields fs ≠ [] := by
  match fs with
  | [] => simp [renderFields]
  | [f] => simp [renderFields]
  | f :: f2 :: fs => simp [renderFields]

theorem length_le_length_renderFields :
    ∀ fs : List (List Char), fs.length ≤ (renderFields fs).length
  | [] => by simp [renderFields]
  | [f] => by simp [renderFields]
  | f :: f2 :: fs => by
    have ih := length_le_length_renderFields (f2 :: fs)
    simp only [renderFields, List.length_cons, List.length_append] at ih ⊢
    omega

theorem parseFields_renderFields :
    ∀ (fs : List (List Char)) (fuel : Nat) (rest : List Char),
      fs ≠ [] → fs.length ≤ fuel →
      parseFields fuel (renderFields fs ++ rest) = some (fs, rest)
  | [], _, _, h, _ => absurd rfl h
  | [f], 0, _, _, hf => by simp at hf
  | f :: f2 :: fs, 0, _, _, hf => by simp at hf
  | [f], fuel + 1, rest, _, _ => by
    have hr : renderFields [f] ++ rest = quoteField f ++ ('\n' :: rest) := by
      simp [renderFields]
    rw [hr]
    simp only [parseFields]
    rw [parseField_quoteField f ('\n' :: rest) (Or.inr rfl)]
    simp
  | f :: f2 :: fs, fuel + 1, rest, _, hf => by
    have hr : renderFields (f :: f2 :: fs) ++ rest =
        quoteField f ++ (',' :: (renderFields (f2 :: fs) ++ rest)) := by
      simp [renderFields]
    rw [hr]
    simp only [parseFields]
    rw [parseField_quoteField f (',' :: (renderFields (f2 :: fs) ++ rest))
      (Or.inl rfl)]
    have ih := parseFields_renderFields (f2 :: fs) fuel rest (by simp)
      (by simp only [List.length_cons] at hf ⊢; omega)
    simp [ih]

theorem length_le_length_renderRows :
    ∀ rss : List (List (List Char)), rss.length ≤ (renderRows rss).length
  | [] => by simp [renderRows]
  | r :: rss => by
    have ih := length_le_length_renderRows rss
    have hr : renderRows (r :: rss) = renderFields r ++ renderRows rss := by
      simp [renderRows]
    have hne : (renderFields r).length ≠ 0 := by
      simpa using renderFields_ne_nil r
    simp only [hr, List.length_cons, List.length_append]
    omega

theorem parseRows_renderRows :
    ∀ (rss : List (List (List Char))) (fuel : Nat),
      (∀ r ∈ rss, r ≠ []) → rss.length < fuel →
      parseRows fuel (renderRows rss) = some rss
  | [], 0, _, hf => by simp at hf
  | r :: rss, 0, _, hf => by simp at hf
  | [], fuel + 1, _, _ => by simp [renderRows, parseRows]
  | r :: rss, fuel + 1, hne, hf => by
    have hr : renderRows (r :: rss) = renderFields r ++ renderRows rss := by
      simp [renderRows]
    rw [hr]
    have hempty : (renderFields r ++ renderRows rss).isEmpty = false := by
      have := renderFields_ne_nil r
      cases h : renderFields r with
      | nil => exact absurd h this
      | cons c t => simp [h]
    simp only [parseRows, hempty, Bool.false_eq_true, if_false]
    have hflen : r.length ≤ (renderFields r ++ renderRows rss).length + 1 := by
      have h1 := length_le_length_renderFields r
      simp only [List.length_append]
      omega
    rw [parseFields_renderFields r _ (renderRows rss)
      (hne r (by simp)) hflen]
    have ih := parseRows_renderRows rss fuel
      (fun x hx => hne x (by simp [hx]))
      (by simp only [List.length_cons] at hf; omega)
    simp [ih]

theorem digitVal_digitChar (d : Nat) (hd : d < 10) :
    digitVal (digitChar d) = d := by
  interval_cases d <;> decide

theorem isDigitChar_digitChar (d : Nat) (hd : d < 10) :
    isDigitChar (digitChar d) = true := by
  interval_cases d <;> decide

theorem foldl_digitChars (ds : List Nat) (hds : ∀ d ∈ ds, d < 10) :
    ∀ a : Nat,
      ((ds.map digitChar).reverse).foldl (fun acc c => 10 * acc + digitVal c) a
        = a * 10 ^ ds.length + Nat.ofDigits 10 ds := by
  induction ds with
  | nil => intro a; simp
  | cons d ds ih =>
    intro a
    have hd : d < 10 := hds d (by simp)
    have ih2 := ih (fun x hx => hds x (by simp [hx])) a
    simp only [List.map_cons, List.reverse_cons, List.foldl_append,
      List.foldl_cons, List.foldl_nil]
    rw [ih2, digitVal_digitChar d hd, Nat.ofDigits_cons]
    simp only [List.length_cons]
    ring

theorem parseNatChars_natChars (n : Nat) :
    parseNatChars (natChars n) = some n := by
  by_cases h : n = 0
  · subst h; decide
  · have hds : ∀ d ∈ Nat.digits 10 n, d < 10 := by
      intro d hd
      exact Nat.digits_lt_base (by norm_num) hd
    have hne : Nat.digits 10 n ≠ [] := Nat.digits_ne_nil_iff_ne_zero.mpr h
    have hchars : natChars n = ((Nat.digits 10 n).map digitChar).reverse := by
      simp [natChars, h]
    rw [hchars]
    have hnonempty : ((Nat.digits 10 n).map digitChar).reverse ≠ [] := by
      simp [hne]
    have halldig :
        (((Nat.digits 10 n).map digitChar).reverse).all isDigitChar = true := by
      rw [List.all_eq_true]
      intro c hc
      rw [List.mem_reverse, List.mem_map] at hc
      obtain ⟨d, hd, hdc⟩ := hc
      rw [← hdc]
      exact isDigitChar_digitChar d (hds d hd)
    rw [parseNatChars, if_pos ⟨hnonempty, halldig⟩]
    rw [charsToNat, foldl_digitChars (Nat.digits 10 n) hds 0]
    simp [Nat.ofDigits_digits]

theorem rowOfFields_rowFields (row : CsvRow) :
    rowOfFields (rowFields row) = some row := by
  simp only [rowOfFields, rowFields, parseNatChars_natChars, Option.map_some]
  rfl

theorem mapM_rowOfFields (t : List CsvRow) :
    (t.map rowFields).mapM rowOfFields = some t := by
  induction t with
  | nil => rfl
  | cons r t ih =>
    rw [List.map_cons, List.mapM_cons, rowOfFields_rowFields, ih]
    rfl

/-- Claim C9: the CSV round-trip.  Serializing any table — header row, then
the rows with the columns in the order accession, length, description — and
parsing the file back yields exactly the original rows in the original
order. -/
theorem csv_round_trip (table : List CsvRow) :
    parseCsvChars (writeCsvChars table) = some table := by
  have hw : writeCsvChars table =
      renderRows (headerFields :: table.map rowFields) := by
    simp [writeCsvChars, renderRows, List.map_map, Function.comp_def]
  rw [hw]
  have hne : ∀ r ∈ headerFields :: table.map rowFields, r ≠ [] := by
    intro r hr
    rcases List.mem_cons.mp hr with h | h
    · subst h; simp [headerFields]
    · obtain ⟨row, _, hrow⟩ := List.mem_map.mp h
      rw [← hrow]; simp [rowFields]
  have hfuel : (headerFields :: table.map rowFields).length <
      (renderRows (headerFields :: table.map rowFields)).length + 1 := by
    have := length_le_length_renderRows (headerFields :: table.map rowFields)
    omega
  rw [parseCsvChars, parseRows_renderRows (headerFields :: table.map rowFields)
    ((renderRows (headerFields :: table.map rowFields)).length + 1) hne hfuel]
  simp only [if_pos rfl]
  exact mapM_rowOfFields table
